import Mathlib

/-!
# gtrchive: ingestion of a filtered tweet stream into RethinkDB

A shallow embedding of `src/gtrchive.go` (`func main`).  The program is a
single straight-line procedure that talks to four outside parties: the process
environment, the file system / crypto library, the Twitter client
(`anaconda`) and the RethinkDB driver.  Every answer of an outside party is
taken from a `World` value, every call made to one is recorded, in order, in a
list of `Event`s, and `log.Fatalf` ends the run.
-/

namespace Gtrchive

/-! ## Data model -/

/-- The part of `anaconda.User` that `main` reads. -/
structure User where
  ScreenName : String
  deriving DecidableEq

/-- The part of `anaconda.Tweet` that `main` reads; the value is passed to the
driver as a whole. -/
structure Tweet where
  User : User
  Text : String
  deriving DecidableEq

/-- Dynamic types, other than `anaconda.Tweet`, of the values delivered on the
channel `stream.C`. -/
inductive NoticeKind where
  | StatusDeletionNotice
  | LocationDeletionNotice
  | LimitNotice
  | StatusWithheldNotice
  | UserWithheldNotice
  | DisconnectMessage
  | StallWarning
  | FriendsList
  | DirectMessage
  | EventTweet
  | EventList
  | Event
  | EventFollow
  deriving DecidableEq

/-- A value received from `stream.C` (an `interface{}` in the source): either
an `anaconda.Tweet` or a value of another dynamic type. -/
inductive Message where
  | tweet (o : Tweet)
  | other (kind : NoticeKind) (payload : String)
  deriving DecidableEq

/-- The Go type `url.Values`, a map from keys to lists of values, as an
association list. -/
abbrev Values := List (String × List String)

/-- The result of `anaconda.NewTwitterApiWithCredentials`. -/
structure TwitterApi where
  accessToken : String
  accessSecret : String
  consumerKey : String
  consumerSecret : String
  deriving DecidableEq

/-- A loaded `tls.Certificate`. -/
structure Certificate where
  raw : String
  deriving DecidableEq

/-- An `x509.CertPool`: the certificates appended so far. -/
abbrev CertPool := List String

/-- The fields of `tls.Config` that `main` sets. -/
structure TLSConfig where
  Certificates : List Certificate
  RootCAs : CertPool
  deriving DecidableEq

/-- The fields of `r.ConnectOpts` that `main` sets; `TLSConfig = none` is the
nil pointer. -/
structure ConnectOpts where
  Address : String
  Database : String
  Username : String
  Password : String
  TLSConfig : Option TLSConfig
  deriving DecidableEq

/-- A RethinkDB session handle. -/
structure Session where
  handle : Nat
  deriving DecidableEq

/-- The RethinkDB query terms that `main` builds. -/
inductive Term where
  | DBCreate (name : String)
  | TableCreate (name : String)
  | TableInsert (table : String) (doc : Tweet)
  deriving DecidableEq

/-- Log levels of `anaconda.BasicLogger` used by `main`. -/
inductive Level where
  | debug
  | error
  | fatal
  deriving DecidableEq

/-- One interaction of `main` with an outside party, with the answer it got. -/
inductive Event where
  | log (level : Level) (format : String) (args : List String)
  | newTwitterApiWithCredentials (api : TwitterApi)
  | verifyCredentials (api : TwitterApi) (ok : Bool) (err : Option String)
  | readFile (path : String) (err : Option String)
  | appendCertsFromPEM (pem : String) (ok : Bool)
  | loadX509KeyPair (certFile keyFile : String) (err : Option String)
  | connect (opts : ConnectOpts) (err : Option String)
  | exec (q : Term) (session : Session) (err : Option String)
  | publicStreamFilter (api : TwitterApi) (params : Values)
  | recv (obj : Message)
  deriving DecidableEq

/-- The answers of the outside parties.  Go functions returning `(value, err)`
are pairs whose second component is `none` for a nil error.  `exec` sees the
events so far, so that its answer may differ from call to call. -/
structure World where
  goVersion : String
  goos : String
  goarch : String
  getenv : String → String
  verifyCredentials : TwitterApi → Bool × Option String
  readFile : String → String × Option String
  appendCertsFromPEM : String → List String
  loadX509KeyPair : String → String → Certificate × Option String
  connect : ConnectOpts → Session × Option String
  exec : List Event → Term → Session → Option String
  publicStreamFilter : TwitterApi → Values → List Message

/-! ## The process monad -/

/-- How a procedure ends: normally with a value, or by `log.Fatalf`
(which calls `os.Exit(1)`); either way with the events so far. -/
inductive Res (α : Type) where
  | ok (a : α) (trace : List Event)
  | fatal (trace : List Event)

/-- A procedure: from the events so far to a result. -/
def Proc (α : Type) : Type := List Event → Res α

/-- Sequencing of procedures; a fatal exit skips the rest. -/
def Proc.bind {α β : Type} (m : Proc α) (f : α → Proc β) : Proc β :=
  fun t => match m t with
    | .ok a t1 => f a t1
    | .fatal t1 => .fatal t1

instance : Monad Proc where
  pure a := fun t => .ok a t
  bind := Proc.bind

/-- Record an event. -/
def emit (e : Event) : Proc Unit := fun t => .ok () (t ++ [e])

/-- The events so far. -/
def history : Proc (List Event) := fun t => .ok t t

/-- Formatting of an `error` value under `%v`. -/
def fmtErr : Option String → String
  | none => "<nil>"
  | some e => e

/-- Formatting of a `url.Values` under `%v`. -/
def fmtValues (v : Values) : String :=
  "map[" ++ " ".intercalate (v.map fun kv => kv.1 ++ ":[" ++ " ".intercalate kv.2 ++ "]") ++ "]"

/-- The call `log.Debugf`. -/
def debugf (format : String) (args : List String) : Proc Unit :=
  emit (.log .debug format args)

/-- The call `log.Errorf`. -/
def errorf (format : String) (args : List String) : Proc Unit :=
  emit (.log .error format args)

/-- The call `log.Fatalf`: logs, then exits the process. -/
def fatalf (format : String) (args : List String) : Proc Unit :=
  fun t => .fatal (t ++ [.log .fatal format args])

/-- The call `anaconda.NewTwitterApiWithCredentials`. -/
def newTwitterApiWithCredentials (a b c d : String) : Proc TwitterApi := do
  let api : TwitterApi := ⟨a, b, c, d⟩
  emit (.newTwitterApiWithCredentials api)
  return api

/-- The call `api.VerifyCredentials()`. -/
def verifyCredentials (w : World) (api : TwitterApi) : Proc (Bool × Option String) := do
  let r := w.verifyCredentials api
  emit (.verifyCredentials api r.1 r.2)
  return r

/-- The call `ioutil.ReadFile`. -/
def readFile (w : World) (path : String) : Proc (String × Option String) := do
  let r := w.readFile path
  emit (.readFile path r.2)
  return r

/-- The call `certPool.AppendCertsFromPEM`: the pool after the call and
whether any certificate was appended. -/
def appendCertsFromPEM (w : World) (pool : CertPool) (pem : String) :
    Proc (CertPool × Bool) := do
  let certs := w.appendCertsFromPEM pem
  emit (.appendCertsFromPEM pem (!certs.isEmpty))
  return (pool ++ certs, !certs.isEmpty)

/-- The call `tls.LoadX509KeyPair`. -/
def loadX509KeyPair (w : World) (certFile keyFile : String) :
    Proc (Certificate × Option String) := do
  let r := w.loadX509KeyPair certFile keyFile
  emit (.loadX509KeyPair certFile keyFile r.2)
  return r

/-- The call `r.Connect`. -/
def connect (w : World) (opts : ConnectOpts) : Proc (Session × Option String) := do
  let r := w.connect opts
  emit (.connect opts r.2)
  return r

/-- The call `term.Exec(session)`. -/
def exec (w : World) (q : Term) (session : Session) : Proc (Option String) := do
  let err := w.exec (← history) q session
  emit (.exec q session err)
  return err

/-- The call `api.PublicStreamFilter`: the values that will arrive on
`stream.C` before the channel is closed. -/
def publicStreamFilter (w : World) (api : TwitterApi) (params : Values) :
    Proc (List Message) := do
  emit (.publicStreamFilter api params)
  return w.publicStreamFilter api params

/-! ## The program -/

/-- The function `main` of `src/gtrchive.go`, statement by statement.  The
assignment `api.Log = log` only hands the logger to the client and leaves no
event; `len(s) > 0` is the byte length of `s`; the `range` over `stream.C`
is the loop over the values delivered before the channel is closed. -/
def main (w : World) : Proc Unit := do
  debugf "Go Version: %s" [w.goVersion]
  debugf "Go OS/Arch: %s/%s" [w.goos, w.goarch]

  let api ← newTwitterApiWithCredentials
    (w.getenv "GTR_TWITTER_ACCESS_TOKEN")
    (w.getenv "GTR_TWITTER_ACCESS_SECRET")
    (w.getenv "GTR_TWITTER_CONSUMER_KEY")
    (w.getenv "GTR_TWITTER_CONSUMER_SECRET")

  let (ok, err) ← verifyCredentials w api
  if !ok || err.isSome then
    fatalf "Invalid credentials. %v" [fmtErr err]

  let params : Values := [("track", [w.getenv "GTR_TWITTER_TRACK"])]

  let rdbHost := w.getenv "GTR_RETHINKDB_HOST"
  let rdbPort := w.getenv "GTR_RETHINKDB_PORT"
  let rdbDatabase := w.getenv "GTR_RETHINKDB_DATABASE"
  let rdbUsername := w.getenv "GTR_RETHINKDB_USERNAME"
  let rdbPassword := w.getenv "GTR_RETHINKDB_PASSWORD"
  let rdbTLSCAPath := w.getenv "GTR_RETHINKDB_TLS_CA"
  let rdbTLSCertPath := w.getenv "GTR_RETHINKDB_TLS_CERT"
  let rdbTLSKeyPath := w.getenv "GTR_RETHINKDB_TLS_KEY"

  debugf "RethinkDB Host: %s" [rdbHost]
  debugf "RethinkDB Port: %s" [rdbPort]
  debugf "RethinkDB Database: %s" [rdbDatabase]
  debugf "RethinkDB Username: %s" [rdbUsername]
  debugf "RethinkDB Password: %s" [rdbPassword]
  debugf "RethinkDB TLS CA Path: %s" [rdbTLSCAPath]
  debugf "RethinkDB TLS Cert Path: %s" [rdbTLSCertPath]
  debugf "RethinkDB TLS Key Path: %s" [rdbTLSKeyPath]

  let mut tlsConfig : Option TLSConfig := none

  if rdbTLSCAPath.utf8ByteSize > 0 && rdbTLSCertPath.utf8ByteSize > 0 then
    let certPool : CertPool := []
    let (caCert, err) ← readFile w rdbTLSCAPath
    if err.isSome then
      fatalf "Unable to parse CA certificate. %v" [fmtErr err]
    let (certPool, _) ← appendCertsFromPEM w certPool caCert

    let (clientCert, err) ← loadX509KeyPair w rdbTLSCertPath rdbTLSKeyPath
    if err.isSome then
      fatalf "Unable to parse client key pair. %v" [fmtErr err]

    tlsConfig := some {
      Certificates := [clientCert]
      RootCAs := certPool
    }

  let rdbOpts : ConnectOpts := {
    Address := rdbHost ++ ":" ++ rdbPort
    Database := rdbDatabase
    Username := rdbUsername
    Password := rdbPassword
    TLSConfig := tlsConfig
  }

  let (session, err) ← connect w rdbOpts
  if err.isSome then
    fatalf "Unable to connect to database. %v" [fmtErr err]

  let err ← exec w (.DBCreate rdbDatabase) session
  if err.isSome then
    errorf "Unable to create database. %v" [fmtErr err]

  let err ← exec w (.TableCreate "tweets") session
  if err.isSome then
    errorf "Unable to create table. %v" [fmtErr err]

  debugf "Streaming tweets using params: %v" [fmtValues params]
  let stream ← publicStreamFilter w api params

  for obj in stream do
    emit (.recv obj)
    match obj with
    | .tweet o =>
      debugf "%-15s: %s" [o.User.ScreenName, o.Text]
      let err ← exec w (.TableInsert "tweets" o) session
      if err.isSome then
        errorf "Unable to insert database record. %v" [fmtErr err]
    | _ => pure ()

/-- The `for` loop of `main` on its own: the same statements, for a given
session and list of delivered values. -/
def ingest (w : World) (session : Session) (stream : List Message) : Proc Unit := do
  for obj in stream do
    emit (.recv obj)
    match obj with
    | .tweet o =>
      debugf "%-15s: %s" [o.User.ScreenName, o.Text]
      let err ← exec w (.TableInsert "tweets" o) session
      if err.isSome then
        errorf "Unable to insert database record. %v" [fmtErr err]
    | _ => pure ()

/-- How a run of the program ended. -/
inductive Exit where
  | returned
  | fatal
  deriving DecidableEq

/-- A run of the program: the events in order and how it ended. -/
structure Run where
  trace : List Event
  exit : Exit
  deriving DecidableEq

/-- The run described by the result of a procedure. -/
def Res.toRun {α : Type} : Res α → Run
  | .ok _ t => ⟨t, .returned⟩
  | .fatal t => ⟨t, .fatal⟩

/-- The run of `main` in world `w`, from an empty history. -/
def run (w : World) : Run := (main w []).toRun

/-! ## The run in closed form

The definitions below spell out the events of a run branch by branch.  They are
proved equal to `run` (`run_eq_flat`) and serve only to reason about it. -/

/-- The value of `api` in `main`. -/
def apiOf (w : World) : TwitterApi :=
  ⟨w.getenv "GTR_TWITTER_ACCESS_TOKEN", w.getenv "GTR_TWITTER_ACCESS_SECRET",
   w.getenv "GTR_TWITTER_CONSUMER_KEY", w.getenv "GTR_TWITTER_CONSUMER_SECRET"⟩

/-- The value of `params` in `main`. -/
def paramsOf (w : World) : Values := [("track", [w.getenv "GTR_TWITTER_TRACK"])]

/-- The value of `rdbOpts` in `main`, for a given value of `tlsConfig`. -/
def optsOf (w : World) (tls : Option TLSConfig) : ConnectOpts :=
  { Address := w.getenv "GTR_RETHINKDB_HOST" ++ ":" ++ w.getenv "GTR_RETHINKDB_PORT"
    Database := w.getenv "GTR_RETHINKDB_DATABASE"
    Username := w.getenv "GTR_RETHINKDB_USERNAME"
    Password := w.getenv "GTR_RETHINKDB_PASSWORD"
    TLSConfig := tls }

/-- The condition of the `if` that guards the TLS block of `main`. -/
def tlsGate (w : World) : Bool :=
  decide ((w.getenv "GTR_RETHINKDB_TLS_CA").utf8ByteSize > 0) &&
    decide ((w.getenv "GTR_RETHINKDB_TLS_CERT").utf8ByteSize > 0)

/-- Events up to and including credential verification. -/
def credEvents (w : World) : List Event :=
  [ .log .debug "Go Version: %s" [w.goVersion],
    .log .debug "Go OS/Arch: %s/%s" [w.goos, w.goarch],
    .newTwitterApiWithCredentials (apiOf w),
    .verifyCredentials (apiOf w) (w.verifyCredentials (apiOf w)).1
      (w.verifyCredentials (apiOf w)).2 ]

/-- The eight debug lines about the storage configuration. -/
def configEvents (w : World) : List Event :=
  [ .log .debug "RethinkDB Host: %s" [w.getenv "GTR_RETHINKDB_HOST"],
    .log .debug "RethinkDB Port: %s" [w.getenv "GTR_RETHINKDB_PORT"],
    .log .debug "RethinkDB Database: %s" [w.getenv "GTR_RETHINKDB_DATABASE"],
    .log .debug "RethinkDB Username: %s" [w.getenv "GTR_RETHINKDB_USERNAME"],
    .log .debug "RethinkDB Password: %s" [w.getenv "GTR_RETHINKDB_PASSWORD"],
    .log .debug "RethinkDB TLS CA Path: %s" [w.getenv "GTR_RETHINKDB_TLS_CA"],
    .log .debug "RethinkDB TLS Cert Path: %s" [w.getenv "GTR_RETHINKDB_TLS_CERT"],
    .log .debug "RethinkDB TLS Key Path: %s" [w.getenv "GTR_RETHINKDB_TLS_KEY"] ]

/-- The error line logged after a failed `Exec`, if any. -/
def errLog (format : String) (err : Option String) : List Event :=
  if err.isSome then [.log .error format [fmtErr err]] else []

/-- The events of one iteration of the `for` loop after the receipt of `obj`,
given the events `t` before the iteration. -/
def stepBody (w : World) (session : Session) (t : List Event) : Message → List Event
  | .tweet o =>
    let t1 := t ++ [.recv (.tweet o), .log .debug "%-15s: %s" [o.User.ScreenName, o.Text]]
    let err := w.exec t1 (.TableInsert "tweets" o) session
    [.log .debug "%-15s: %s" [o.User.ScreenName, o.Text],
      .exec (.TableInsert "tweets" o) session err] ++
      errLog "Unable to insert database record. %v" err
  | .other _ _ => []

/-- The events of one iteration of the `for` loop, given the events `t`
before it. -/
def stepEvents (w : World) (session : Session) (t : List Event) (obj : Message) : List Event :=
  .recv obj :: stepBody w session t obj

/-- The events of the whole `for` loop, given the events `t` before it. -/
def loopEvents (w : World) (session : Session) : List Event → List Message → List Event
  | _, [] => []
  | t, obj :: rest =>
    stepEvents w session t obj ++ loopEvents w session (t ++ stepEvents w session t obj) rest

/-- The events of reading and parsing the TLS material, when the CA file is
read without error. -/
def tlsEvents (w : World) : List Event :=
  let ca := w.getenv "GTR_RETHINKDB_TLS_CA"
  let cert := w.getenv "GTR_RETHINKDB_TLS_CERT"
  let key := w.getenv "GTR_RETHINKDB_TLS_KEY"
  [ .readFile ca (w.readFile ca).2,
    .appendCertsFromPEM (w.readFile ca).1 (!(w.appendCertsFromPEM (w.readFile ca).1).isEmpty),
    .loadX509KeyPair cert key (w.loadX509KeyPair cert key).2 ]

/-- The value of `tlsConfig` at the end of the TLS block, when the block is
entered and does not exit. -/
def tlsConfigOf (w : World) : TLSConfig :=
  { Certificates := [(w.loadX509KeyPair (w.getenv "GTR_RETHINKDB_TLS_CERT")
      (w.getenv "GTR_RETHINKDB_TLS_KEY")).1]
    RootCAs := w.appendCertsFromPEM (w.readFile (w.getenv "GTR_RETHINKDB_TLS_CA")).1 }

/-- The events of the database creation, given the events `t` before it. -/
def dbCreateEvents (w : World) (session : Session) (t : List Event) : List Event :=
  let q := Term.DBCreate (w.getenv "GTR_RETHINKDB_DATABASE")
  [.exec q session (w.exec t q session)] ++
    errLog "Unable to create database. %v" (w.exec t q session)

/-- The events of the table creation, given the events `t` before it. -/
def tableCreateEvents (w : World) (session : Session) (t : List Event) : List Event :=
  let q := Term.TableCreate "tweets"
  [.exec q session (w.exec t q session)] ++
    errLog "Unable to create table. %v" (w.exec t q session)

/-- The events of opening the subscription. -/
def openEvents (w : World) : List Event :=
  [ .log .debug "Streaming tweets using params: %v" [fmtValues (paramsOf w)],
    .publicStreamFilter (apiOf w) (paramsOf w) ]

/-- The events from the database creation to the opening of the subscription,
given the events `t` before them. -/
def schemaEvents (w : World) (session : Session) (t : List Event) : List Event :=
  dbCreateEvents w session t ++
    tableCreateEvents w session (t ++ dbCreateEvents w session t) ++ openEvents w

/-- Closed form of the run from `r.Connect` on, after the events `t`. -/
def flatConnect (w : World) (t : List Event) (tls : Option TLSConfig) : Run :=
  let c := w.connect (optsOf w tls)
  let t1 := t ++ [.connect (optsOf w tls) c.2]
  if c.2.isSome then
    ⟨t1 ++ [.log .fatal "Unable to connect to database. %v" [fmtErr c.2]], .fatal⟩
  else
    let t2 := t1 ++ schemaEvents w c.1 t1
    ⟨t2 ++ loopEvents w c.1 t2 (w.publicStreamFilter (apiOf w) (paramsOf w)), .returned⟩

/-- Closed form of the whole run. -/
def flat (w : World) : Run :=
  let v := w.verifyCredentials (apiOf w)
  if !v.1 || v.2.isSome then
    ⟨credEvents w ++ [.log .fatal "Invalid credentials. %v" [fmtErr v.2]], .fatal⟩
  else
    let t1 := credEvents w ++ configEvents w
    let ca := w.getenv "GTR_RETHINKDB_TLS_CA"
    let cert := w.getenv "GTR_RETHINKDB_TLS_CERT"
    let key := w.getenv "GTR_RETHINKDB_TLS_KEY"
    if tlsGate w then
      if (w.readFile ca).2.isSome then
        ⟨t1 ++ [.readFile ca (w.readFile ca).2,
          .log .fatal "Unable to parse CA certificate. %v" [fmtErr (w.readFile ca).2]], .fatal⟩
      else if (w.loadX509KeyPair cert key).2.isSome then
        ⟨t1 ++ tlsEvents w ++ [.log .fatal "Unable to parse client key pair. %v"
          [fmtErr (w.loadX509KeyPair cert key).2]], .fatal⟩
      else
        flatConnect w (t1 ++ tlsEvents w) (some (tlsConfigOf w))
    else
      flatConnect w t1 none

/-! ## Observations on a trace -/

/-- Whether a value from the stream is a content record (`anaconda.Tweet`). -/
def isTweet : Message → Bool
  | .tweet _ => true
  | .other _ _ => false

/-- The content record carried by a value from the stream, if it is one. -/
def asTweet : Message → Option Tweet
  | .tweet o => some o
  | .other _ _ => none

/-- An attempt to insert a document: the table, the document, and the error
returned, if any. -/
structure InsertAttempt where
  table : String
  doc : Tweet
  err : Option String
  deriving DecidableEq

/-- The insert attempt an event stands for, if it is one. -/
def asInsert : Event → Option InsertAttempt
  | .exec (.TableInsert table doc) _ err => some ⟨table, doc, err⟩
  | _ => none

/-- The insert attempts of a trace, in order. -/
def insertAttempts (t : List Event) : List InsertAttempt := t.filterMap asInsert

/-- Whether an event is the receipt of a value from the stream. -/
def isRecv : Event → Bool
  | .recv _ => true
  | _ => false

/-- The values received from the stream, each with the events that follow it
up to the next receipt (or the end of the trace). -/
def segments : List Event → List (Message × List Event)
  | [] => []
  | .recv obj :: rest => (obj, rest.takeWhile fun e => !isRecv e) :: segments rest
  | _ :: rest => segments rest

/-- Whether an event is a call of `r.Connect`. -/
def isConnect : Event → Bool
  | .connect _ _ => true
  | _ => false

/-- Whether an event is the execution of a query. -/
def isExec : Event → Bool
  | .exec _ _ _ => true
  | _ => false

/-- Whether an event is a call of `api.PublicStreamFilter`. -/
def isSubscribe : Event → Bool
  | .publicStreamFilter _ _ => true
  | _ => false

/-- Whether an event touches the TLS material: reading the CA file, parsing
it, or loading the certificate and key files. -/
def isTLSLoad : Event → Bool
  | .readFile _ _ => true
  | .appendCertsFromPEM _ _ => true
  | .loadX509KeyPair _ _ _ => true
  | _ => false

/-- Whether an event is a schema operation (database or table creation) or the
opening of the subscription. -/
def isSetupCall : Event → Bool
  | .exec (.DBCreate _) _ _ => true
  | .exec (.TableCreate _) _ _ => true
  | .publicStreamFilter _ _ => true
  | _ => false

/-- Whether an event can occur inside the `for` loop. -/
def isLoopEvent : Event → Bool
  | .recv _ => true
  | .log _ _ _ => true
  | .exec (.TableInsert _ _) _ _ => true
  | _ => false

/-! ## Sample worlds -/

/-- A world in which everything succeeds, no TLS material is configured, the
track filter is `rust` and one record by `alice` is delivered. -/
def demoWorld : World where
  goVersion := "go1.12"
  goos := "linux"
  goarch := "amd64"
  getenv := fun k => if k = "GTR_TWITTER_TRACK" then "rust" else ""
  verifyCredentials := fun _ => (true, none)
  readFile := fun _ => ("", some "no such file")
  appendCertsFromPEM := fun _ => []
  loadX509KeyPair := fun _ _ => (⟨""⟩, some "no such file")
  connect := fun _ => (⟨1⟩, none)
  exec := fun _ _ _ => none
  publicStreamFilter := fun _ _ => [.tweet ⟨⟨"alice"⟩, "hello"⟩]

/-- Like `demoWorld`, but three values are delivered, a record by `alice`, a
limit notice and a record by `bob`, and every insert of the record by `alice`
fails. -/
def mixedWorld : World :=
  { demoWorld with
    exec := fun _ q _ =>
      if q = .TableInsert "tweets" ⟨⟨"alice"⟩, "hello"⟩ then some "write failed" else none
    publicStreamFilter := fun _ _ =>
      [.tweet ⟨⟨"alice"⟩, "hello"⟩, .other .LimitNotice "track:3", .tweet ⟨⟨"bob"⟩, "hi"⟩] }

/-- Like `demoWorld`, but only values that are not content records are
delivered. -/
def noticeWorld : World :=
  { demoWorld with
    publicStreamFilter := fun _ _ =>
      [.other .LimitNotice "track:3", .other .StallWarning "falling behind"] }

/-- Like `demoWorld`, but credential verification answers `false` without an
error. -/
def badCredsWorld : World :=
  { demoWorld with verifyCredentials := fun _ => (false, none) }

/-- Settings of the environment of a world: `getenv` answers from the list and
with the empty string for a variable that is not in it. -/
def envOf (vars : List (String × String)) (k : String) : String :=
  match vars.lookup k with
  | some v => v
  | none => ""

/-- Like `demoWorld`, but with a CA path, a certificate path and a key path
set; the CA file is read, the certificate and key pair fails to load. -/
def tlsKeyBadWorld : World :=
  { demoWorld with
    getenv := envOf [("GTR_TWITTER_TRACK", "rust"), ("GTR_RETHINKDB_TLS_CA", "/tls/ca.pem"),
      ("GTR_RETHINKDB_TLS_CERT", "/tls/client.pem"), ("GTR_RETHINKDB_TLS_KEY", "/tls/missing.key")]
    readFile := fun _ => ("-----BEGIN CERTIFICATE-----", none)
    appendCertsFromPEM := fun _ => ["ca"]
    loadX509KeyPair := fun _ _ => (⟨""⟩, some "open /tls/missing.key: no such file") }

/-- Like `demoWorld`, but with a certificate path and a key path set and no CA
path. -/
def certOnlyWorld : World :=
  { demoWorld with
    getenv := envOf [("GTR_TWITTER_TRACK", "rust"),
      ("GTR_RETHINKDB_TLS_CERT", "/tls/client.pem"), ("GTR_RETHINKDB_TLS_KEY", "/tls/missing.key")] }

/-- Like `tlsKeyBadWorld`, but the CA file holds no certificate at all and the
certificate and key pair loads. -/
def badPemWorld : World :=
  { tlsKeyBadWorld with
    readFile := fun _ => ("not a certificate", none)
    appendCertsFromPEM := fun _ => []
    loadX509KeyPair := fun _ _ => (⟨"client"⟩, none) }

/-- Like `demoWorld`, but the database and the table exist already: both
creations fail. -/
def schemaExistsWorld : World :=
  { demoWorld with
    exec := fun _ q _ =>
      match q with
      | .DBCreate _ => some "Database already exists"
      | .TableCreate _ => some "Table already exists"
      | .TableInsert _ _ => none }

/-- Like `demoWorld`, but the storage connection fails. -/
def noDbWorld : World :=
  { demoWorld with connect := fun _ => (⟨0⟩, some "dial tcp: connection refused") }

/-! ## The closed form is the run -/

theorem Proc.ite_app {α : Type} (c : Prop) [Decidable c] (a b : Proc α) (t : List Event) :
    (if c then a else b) t = if c then a t else b t := by
  split <;> rfl

theorem Res.toRun_ite {α : Type} (c : Prop) [Decidable c] (a b : Res α) :
    (if c then a else b).toRun = if c then a.toRun else b.toRun := by
  split <;> rfl

theorem Res.toRun_ok {α : Type} (a : α) (t : List Event) :
    (Res.ok a t).toRun = ⟨t, .returned⟩ := rfl

theorem Res.toRun_fatal {α : Type} (t : List Event) :
    (Res.fatal t : Res α).toRun = ⟨t, .fatal⟩ := rfl

/-- A `for` loop whose body always yields, adding the events of one step, adds
the events of all steps. -/
theorem forIn_loopEvents (w : World) (session : Session)
    (f : Message → PUnit → Proc (ForInStep PUnit))
    (hf : ∀ obj r t, f obj r t = .ok (.yield PUnit.unit) (t ++ stepEvents w session t obj))
    (stream : List Message) (t : List Event) :
    forIn stream PUnit.unit f t = .ok PUnit.unit (t ++ loopEvents w session t stream) := by
  induction stream generalizing t with
  | nil => simp [loopEvents]; rfl
  | cons obj rest ih =>
    simp only [List.forIn_cons, loopEvents]
    show Proc.bind _ _ t = _
    unfold Proc.bind
    rw [hf, ← List.append_assoc]
    exact ih _

/-- The loop of `main` never exits fatally and adds exactly `loopEvents`. -/
theorem ingest_eq (w : World) (session : Session) (stream : List Message) (t : List Event) :
    ingest w session stream t = .ok PUnit.unit (t ++ loopEvents w session t stream) := by
  unfold ingest
  show Proc.bind _ _ t = _
  unfold Proc.bind
  rw [forIn_loopEvents w session]
  · rfl
  · intro obj r t
    cases obj with
    | tweet o =>
      simp only [bind, Proc.bind, emit, debugf, exec, history, errorf, pure, stepEvents, stepBody,
        errLog, Proc.ite_app]
      split <;> simp_all
    | other k p => rfl

/-- The run of `main` is the closed form `flat`. -/
theorem run_eq_flat (w : World) : run w = flat w := by
  unfold run main flat flatConnect
  simp only [← ingest.eq_1]
  simp only [bind, Proc.bind, debugf, errorf, fatalf, emit, newTwitterApiWithCredentials,
    verifyCredentials, readFile, appendCertsFromPEM, loadX509KeyPair, connect, exec, history,
    publicStreamFilter, pure, credEvents, configEvents, apiOf, paramsOf, optsOf, errLog, tlsGate,
    tlsEvents, tlsConfigOf, dbCreateEvents, tableCreateEvents, openEvents, schemaEvents,
    Proc.ite_app, Res.toRun_ite, Res.toRun_ok, Res.toRun_fatal, ingest_eq, List.nil_append,
    List.append_assoc, List.cons_append, List.append_nil]
  generalize w.verifyCredentials _ = v
  generalize w.readFile _ = rf
  generalize w.appendCertsFromPEM _ = certs
  generalize w.loadX509KeyPair _ _ = kp
  generalize (decide (_ > 0) && decide (_ > 0)) = gate
  generalize w.publicStreamFilter _ _ = stream
  by_cases hv : (!v.1 || v.2.isSome) = true
  · simp only [hv, if_true]
  simp only [hv, if_false]
  cases gate
  · simp only [Option.isSome_none, Option.isSome_some, Bool.false_eq_true, if_true, if_false,
      List.cons_append, List.nil_append, List.append_nil, List.append_assoc, Bool.not_true,
      Bool.not_false, Bool.or_false, Bool.or_true, Bool.true_or, Bool.false_or]
    generalize w.connect _ = c
    obtain ⟨session, cerr⟩ := c
    cases cerr
    · simp only [Option.isSome_none, Option.isSome_some, Bool.false_eq_true, if_true, if_false,
      List.cons_append, List.nil_append, List.append_nil, List.append_assoc, Bool.not_true,
      Bool.not_false, Bool.or_false, Bool.or_true, Bool.true_or, Bool.false_or]
      generalize w.exec _ _ _ = e1
      cases e1
      all_goals
        simp only [Option.isSome_none, Option.isSome_some, Bool.false_eq_true, if_true, if_false,
      List.cons_append, List.nil_append, List.append_nil, List.append_assoc, Bool.not_true,
      Bool.not_false, Bool.or_false, Bool.or_true, Bool.true_or, Bool.false_or]
        generalize w.exec _ _ _ = e2
        cases e2
        all_goals simp only [Option.isSome_none, Option.isSome_some, Bool.false_eq_true, if_true, if_false,
      List.cons_append, List.nil_append, List.append_nil, List.append_assoc, Bool.not_true,
      Bool.not_false, Bool.or_false, Bool.or_true, Bool.true_or, Bool.false_or]
    · simp only [Option.isSome_none, Option.isSome_some, Bool.false_eq_true, if_true, if_false,
      List.cons_append, List.nil_append, List.append_nil, List.append_assoc, Bool.not_true,
      Bool.not_false, Bool.or_false, Bool.or_true, Bool.true_or, Bool.false_or]
  · simp only [Option.isSome_none, Option.isSome_some, Bool.false_eq_true, if_true, if_false,
      List.cons_append, List.nil_append, List.append_nil, List.append_assoc, Bool.not_true,
      Bool.not_false, Bool.or_false, Bool.or_true, Bool.true_or, Bool.false_or]
    obtain ⟨ca, rerr⟩ := rf
    cases rerr
    · simp only [Option.isSome_none, Option.isSome_some, Bool.false_eq_true, if_true, if_false,
      List.cons_append, List.nil_append, List.append_nil, List.append_assoc, Bool.not_true,
      Bool.not_false, Bool.or_false, Bool.or_true, Bool.true_or, Bool.false_or]
      obtain ⟨cert, kerr⟩ := kp
      cases kerr
      · simp only [Option.isSome_none, Option.isSome_some, Bool.false_eq_true, if_true, if_false,
      List.cons_append, List.nil_append, List.append_nil, List.append_assoc, Bool.not_true,
      Bool.not_false, Bool.or_false, Bool.or_true, Bool.true_or, Bool.false_or]
        generalize w.connect _ = c
        obtain ⟨session, cerr⟩ := c
        cases cerr
        · simp only [Option.isSome_none, Option.isSome_some, Bool.false_eq_true, if_true, if_false,
          List.cons_append, List.nil_append, List.append_nil, List.append_assoc, Bool.not_true,
          Bool.not_false, Bool.or_false, Bool.or_true, Bool.true_or, Bool.false_or]
          generalize w.exec _ _ _ = e1
          cases e1
          all_goals
            simp only [Option.isSome_none, Option.isSome_some, Bool.false_eq_true, if_true, if_false,
          List.cons_append, List.nil_append, List.append_nil, List.append_assoc, Bool.not_true,
          Bool.not_false, Bool.or_false, Bool.or_true, Bool.true_or, Bool.false_or]
            generalize w.exec _ _ _ = e2
            cases e2
            all_goals simp only [Option.isSome_none, Option.isSome_some, Bool.false_eq_true, if_true, if_false,
          List.cons_append, List.nil_append, List.append_nil, List.append_assoc, Bool.not_true,
          Bool.not_false, Bool.or_false, Bool.or_true, Bool.true_or, Bool.false_or]
        · simp only [Option.isSome_none, Option.isSome_some, Bool.false_eq_true, if_true, if_false,
          List.cons_append, List.nil_append, List.append_nil, List.append_assoc, Bool.not_true,
          Bool.not_false, Bool.or_false, Bool.or_true, Bool.true_or, Bool.false_or]
      · simp only [Option.isSome_none, Option.isSome_some, Bool.false_eq_true, if_true, if_false,
      List.cons_append, List.nil_append, List.append_nil, List.append_assoc, Bool.not_true,
      Bool.not_false, Bool.or_false, Bool.or_true, Bool.true_or, Bool.false_or]
    · simp only [Option.isSome_none, Option.isSome_some, Bool.false_eq_true, if_true, if_false,
      List.cons_append, List.nil_append, List.append_nil, List.append_assoc, Bool.not_true,
      Bool.not_false, Bool.or_false, Bool.or_true, Bool.true_or, Bool.false_or]

/-! ## Facts about the events of the loop -/

theorem mem_stepEvents {w : World} {session : Session} {t : List Event} {obj : Message}
    {e : Event} (h : e ∈ stepEvents w session t obj) : isLoopEvent e = true := by
  cases obj with
  | tweet o =>
    simp only [stepEvents, stepBody, errLog, List.mem_append, List.mem_cons, List.mem_singleton,
      List.not_mem_nil, or_false] at h
    rcases h with h | (h | h) | h
    · subst h; rfl
    · subst h; rfl
    · subst h; rfl
    · split at h
      · simp at h; subst h; rfl
      · simp at h
  | other k p =>
    simp only [stepEvents, stepBody, List.mem_singleton] at h
    subst h; rfl

theorem mem_loopEvents {w : World} {session : Session} {stream : List Message} {t : List Event}
    {e : Event} (h : e ∈ loopEvents w session t stream) : isLoopEvent e = true := by
  induction stream generalizing t with
  | nil => simp [loopEvents] at h
  | cons obj rest ih =>
    simp only [loopEvents, List.mem_append] at h
    rcases h with h | h
    · exact mem_stepEvents h
    · exact ih h

theorem not_mem_loopEvents {w : World} {session : Session} {stream : List Message}
    {t : List Event} {e : Event} (he : isLoopEvent e = false) :
    e ∈ loopEvents w session t stream ↔ False := by
  constructor
  · intro h
    rw [mem_loopEvents h] at he
    cases he
  · exact False.elim

/-- A test that fails on every loop event selects nothing from the loop. -/
theorem filter_loopEvents (p : Event → Bool) (hp : ∀ e, isLoopEvent e = true → p e = false)
    (w : World) (session : Session) (t : List Event) (stream : List Message) :
    (loopEvents w session t stream).filter p = [] := by
  rw [List.filter_eq_nil_iff]
  intro e he
  rw [hp e (mem_loopEvents he)]
  simp

theorem stepBody_quiet {w : World} {session : Session} {t : List Event} {obj : Message}
    {e : Event} (h : e ∈ stepBody w session t obj) : isRecv e = false := by
  cases obj with
  | tweet o =>
    simp only [stepBody, errLog, List.mem_append, List.mem_cons, List.mem_singleton,
      List.not_mem_nil, or_false] at h
    rcases h with (h | h) | h
    · subst h; rfl
    · subst h; rfl
    · split at h
      · simp at h; subst h; rfl
      · simp at h
  | other k p => simp [stepBody] at h

theorem insertAttempts_stepBody_tweet (w : World) (session : Session) (t : List Event)
    (o : Tweet) :
    ∃ err, insertAttempts (stepBody w session t (.tweet o)) = [⟨"tweets", o, err⟩] := by
  refine ⟨w.exec (t ++ [.recv (.tweet o), .log .debug "%-15s: %s" [o.User.ScreenName, o.Text]])
    (.TableInsert "tweets" o) session, ?_⟩
  simp only [insertAttempts, stepBody, errLog]
  split <;> simp [List.filterMap_cons, asInsert]

theorem insertAttempts_append (a b : List Event) :
    insertAttempts (a ++ b) = insertAttempts a ++ insertAttempts b := by
  simp [insertAttempts, List.filterMap_append]

theorem insertAttempts_stepEvents (w : World) (session : Session) (t : List Event)
    (obj : Message) :
    (insertAttempts (stepEvents w session t obj)).map (fun a => (a.table, a.doc)) =
      (asTweet obj).toList.map (fun o => ("tweets", o)) := by
  cases obj with
  | tweet o =>
    obtain ⟨err, h⟩ := insertAttempts_stepBody_tweet w session t o
    have : insertAttempts (stepEvents w session t (.tweet o)) =
        insertAttempts (stepBody w session t (.tweet o)) := by
      simp [stepEvents, insertAttempts, List.filterMap_cons, asInsert]
    rw [this, h]
    rfl
  | other k p => rfl

/-- The documents the loop tries to insert are the delivered content records,
in order, all into the table `tweets`. -/
theorem insertAttempts_loopEvents (w : World) (session : Session) (t : List Event)
    (stream : List Message) :
    (insertAttempts (loopEvents w session t stream)).map (fun a => (a.table, a.doc)) =
      (stream.filterMap asTweet).map (fun o => ("tweets", o)) := by
  induction stream generalizing t with
  | nil => rfl
  | cons obj rest ih =>
    simp only [loopEvents, insertAttempts_append, List.map_append, ih,
      insertAttempts_stepEvents]
    cases obj <;> simp [asTweet, List.filterMap_cons]

theorem length_filterMap_asTweet (stream : List Message) :
    (stream.filterMap asTweet).length = stream.countP isTweet := by
  induction stream with
  | nil => rfl
  | cons obj rest ih =>
    cases obj <;> simp [asTweet, isTweet, List.filterMap_cons, ih]

/-! ## Facts about `segments` -/

theorem takeWhile_append_stop (p : Event → Bool) (body rest : List Event)
    (hb : ∀ e ∈ body, p e = true)
    (hr : rest = [] ∨ ∃ e l, rest = e :: l ∧ p e = false) :
    (body ++ rest).takeWhile p = body := by
  induction body with
  | nil =>
    rcases hr with hr | ⟨e, l, hr, hp⟩
    · subst hr; rfl
    · subst hr; simp [List.takeWhile_cons, hp]
  | cons b body ih =>
    have hb1 : p b = true := hb b (List.mem_cons_self _ _)
    simp only [List.cons_append, List.takeWhile_cons, hb1, if_true]
    rw [ih (fun e he => hb e (List.mem_cons_of_mem _ he))]

theorem segments_append_quiet (body rest : List Event)
    (hb : ∀ e ∈ body, isRecv e = false) : segments (body ++ rest) = segments rest := by
  induction body with
  | nil => rfl
  | cons b body ih =>
    have hb1 : isRecv b = false := hb b (List.mem_cons_self _ _)
    have ih1 := ih (fun e he => hb e (List.mem_cons_of_mem _ he))
    cases b <;> first | (simp [isRecv] at hb1; done) | (simpa [segments] using ih1)

theorem loopEvents_head (w : World) (session : Session) (t : List Event)
    (stream : List Message) :
    loopEvents w session t stream = [] ∨
      ∃ e l, loopEvents w session t stream = e :: l ∧ (!isRecv e) = false := by
  cases stream with
  | nil => exact Or.inl rfl
  | cons obj rest => exact Or.inr ⟨.recv obj, _, rfl, rfl⟩

theorem segments_loopEvents_cons (w : World) (session : Session) (t : List Event)
    (obj : Message) (rest : List Message) :
    segments (loopEvents w session t (obj :: rest)) =
      (obj, stepBody w session t obj) ::
        segments (loopEvents w session (t ++ stepEvents w session t obj) rest) := by
  simp only [loopEvents, stepEvents, List.cons_append, segments, List.append_eq]
  rw [takeWhile_append_stop _ _ _ (fun e he => by simp [stepBody_quiet he])
    (loopEvents_head w session _ rest),
    segments_append_quiet _ _ (fun e he => stepBody_quiet he)]

/-- The loop receives every delivered value, in order. -/
theorem segments_loopEvents_fst (w : World) (session : Session) (t : List Event)
    (stream : List Message) :
    (segments (loopEvents w session t stream)).map Prod.fst = stream := by
  induction stream generalizing t with
  | nil => rfl
  | cons obj rest ih => rw [segments_loopEvents_cons, List.map_cons, ih]

/-- What follows the receipt of a value in the loop is the body of its own
iteration. -/
theorem segments_loopEvents_snd (w : World) (session : Session) (t : List Event)
    (stream : List Message) :
    ∀ seg ∈ segments (loopEvents w session t stream),
      ∃ t1, seg.2 = stepBody w session t1 seg.1 := by
  induction stream generalizing t with
  | nil => intro seg h; simp [loopEvents, segments] at h
  | cons obj rest ih =>
    intro seg h
    rw [segments_loopEvents_cons, List.mem_cons] at h
    rcases h with h | h
    · subst h; exact ⟨t, rfl⟩
    · exact ih _ seg h


/-! ## Facts about the startup events -/

theorem mem_errLog {format : String} {err : Option String} {e : Event}
    (h : e ∈ errLog format err) : e = .log .error format [fmtErr err] := by
  unfold errLog at h
  split at h
  · simpa using h
  · simp at h

/-- A test that fails on log lines selects nothing from an error line. -/
theorem filter_errLog (p : Event → Bool) (hp : ∀ l f a, p (.log l f a) = false)
    (format : String) (err : Option String) : (errLog format err).filter p = [] := by
  unfold errLog
  split <;> simp [hp]

/-- The schema operations and the opening of the subscription happen once
each, in this order, whatever the outcome of each. -/
theorem schemaEvents_setupCalls (w : World) (session : Session) (t : List Event) :
    ∃ e1 e2, (schemaEvents w session t).filter isSetupCall =
      [ .exec (.DBCreate (w.getenv "GTR_RETHINKDB_DATABASE")) session e1,
        .exec (.TableCreate "tweets") session e2,
        .publicStreamFilter (apiOf w) (paramsOf w) ] := by
  refine ⟨w.exec t (.DBCreate (w.getenv "GTR_RETHINKDB_DATABASE")) session,
    w.exec (t ++ dbCreateEvents w session t) (.TableCreate "tweets") session, ?_⟩
  simp only [schemaEvents, dbCreateEvents, tableCreateEvents, openEvents, List.filter_append,
    filter_errLog isSetupCall (fun _ _ _ => rfl), List.append_nil]
  rfl

theorem mem_schemaEvents {w : World} {session : Session} {t : List Event} {e : Event}
    (h : e ∈ schemaEvents w session t) :
    (∃ l f a, e = .log l f a) ∨ (∃ err, e = .exec (.DBCreate (w.getenv "GTR_RETHINKDB_DATABASE"))
      session err) ∨ (∃ err, e = .exec (.TableCreate "tweets") session err) ∨
      e = .publicStreamFilter (apiOf w) (paramsOf w) := by
  simp only [schemaEvents, dbCreateEvents, tableCreateEvents, openEvents, List.mem_append,
    List.mem_cons, List.mem_singleton, List.not_mem_nil, or_false] at h
  rcases h with ((h | h) | (h | h)) | (h | h)
  · exact Or.inr (Or.inl ⟨_, h⟩)
  · exact Or.inl ⟨_, _, _, mem_errLog h⟩
  · exact Or.inr (Or.inr (Or.inl ⟨_, h⟩))
  · exact Or.inl ⟨_, _, _, mem_errLog h⟩
  · exact Or.inl ⟨_, _, _, h⟩
  · exact Or.inr (Or.inr (Or.inr h))

theorem schemaEvents_quiet {w : World} {session : Session} {t : List Event} {e : Event}
    (h : e ∈ schemaEvents w session t) :
    isRecv e = false ∧ asInsert e = none ∧ isConnect e = false ∧ isTLSLoad e = false := by
  rcases mem_schemaEvents h with ⟨l, f, a, rfl⟩ | ⟨err, rfl⟩ | ⟨err, rfl⟩ | rfl <;>
    exact ⟨rfl, rfl, rfl, rfl⟩

/-- A run that opens the subscription does so with the API value and the
parameters built from the environment, returns normally, and consists of
startup events followed by the events of the loop. -/
theorem run_subscribed (w : World) (api : TwitterApi) (params : Values)
    (h : Event.publicStreamFilter api params ∈ (run w).trace) :
    api = apiOf w ∧ params = paramsOf w ∧ (run w).exit = .returned ∧
    ∃ setup session, (run w).trace =
        setup ++ loopEvents w session setup (w.publicStreamFilter (apiOf w) (paramsOf w)) ∧
      ∀ e ∈ setup, isRecv e = false ∧ asInsert e = none := by
  rw [run_eq_flat] at h ⊢
  unfold flat flatConnect at h ⊢
  simp only [] at h ⊢
  split_ifs at h ⊢
  all_goals
    simp only [List.mem_append, List.mem_cons, List.mem_singleton, List.not_mem_nil, or_false,
      credEvents, configEvents, tlsEvents, not_mem_loopEvents, isLoopEvent, reduceCtorEq,
      false_or, or_self, or_false] at h
  all_goals
    refine ⟨?_, ?_, rfl, _, _, rfl, ?_⟩
    · rcases mem_schemaEvents h with ⟨l, f, a, h1⟩ | ⟨err, h1⟩ | ⟨err, h1⟩ | h1 <;>
        simp_all
    · rcases mem_schemaEvents h with ⟨l, f, a, h1⟩ | ⟨err, h1⟩ | ⟨err, h1⟩ | h1 <;>
        simp_all
    · rw [List.forall_mem_append]
      refine ⟨?_, fun e he => ⟨(schemaEvents_quiet he).1, (schemaEvents_quiet he).2.1⟩⟩
      simp only [List.forall_mem_append, List.forall_mem_cons, credEvents, configEvents,
        tlsEvents, isRecv, asInsert, List.not_mem_nil, and_self, false_implies, implies_true]

/-- The subscription is opened as soon as the credentials verify, the TLS
material (when configured) loads and the storage connection succeeds,
whatever is delivered on the stream and whatever the outcomes of the queries. -/
theorem subscribed_of_startup (w : World)
    (hv : w.verifyCredentials (apiOf w) = (true, none))
    (htls : tlsGate w = true →
      (w.readFile (w.getenv "GTR_RETHINKDB_TLS_CA")).2 = none ∧
      (w.loadX509KeyPair (w.getenv "GTR_RETHINKDB_TLS_CERT")
        (w.getenv "GTR_RETHINKDB_TLS_KEY")).2 = none)
    (hc : ∀ opts, (w.connect opts).2 = none) :
    Event.publicStreamFilter (apiOf w) (paramsOf w) ∈ (run w).trace := by
  rw [run_eq_flat]
  unfold flat flatConnect
  simp only [hv, hc, Bool.not_true, Option.isSome_none, Bool.or_false, Bool.false_eq_true,
    if_false]
  split
  · rename_i hg
    simp only [(htls hg).1, (htls hg).2, Option.isSome_none, Bool.false_eq_true, if_false]
    simp [schemaEvents, openEvents]
  · simp [schemaEvents, openEvents]

/-! ## The ingestion loop -/

theorem insertAttempts_setup {setup rest : List Event}
    (hq : ∀ e ∈ setup, isRecv e = false ∧ asInsert e = none) :
    insertAttempts (setup ++ rest) = insertAttempts rest := by
  rw [insertAttempts_append]
  have : insertAttempts setup = [] := by
    unfold insertAttempts
    rw [List.filterMap_eq_nil_iff]
    exact fun e he => (hq e he).2
  rw [this, List.nil_append]

/-- C1: once the subscription is open, whatever the outcomes of the inserts,
the run returns normally, every delivered value is received in order, the
receipt of a content record is followed by exactly one insert attempt before
the next receipt, and the number of insert attempts is the number of content
records delivered. -/
theorem insert_once_per_tweet (w : World) (api : TwitterApi) (params : Values)
    (h : Event.publicStreamFilter api params ∈ (run w).trace) :
    (run w).exit = .returned ∧
    (segments (run w).trace).map Prod.fst = w.publicStreamFilter api params ∧
    (∀ seg ∈ segments (run w).trace, isTweet seg.1 = true →
      (insertAttempts seg.2).length = 1) ∧
    (insertAttempts (run w).trace).length = (w.publicStreamFilter api params).countP isTweet := by
  obtain ⟨hapi, hpar, hexit, setup, s, htr, hq⟩ := run_subscribed w api params h
  subst hapi hpar
  have hseg : segments (run w).trace =
      segments (loopEvents w s setup (w.publicStreamFilter (apiOf w) (paramsOf w))) := by
    rw [htr]
    exact segments_append_quiet _ _ (fun e he => (hq e he).1)
  have hins : insertAttempts (run w).trace =
      insertAttempts (loopEvents w s setup (w.publicStreamFilter (apiOf w) (paramsOf w))) := by
    rw [htr]
    exact insertAttempts_setup hq
  refine ⟨hexit, ?_, ?_, ?_⟩
  · rw [hseg]
    exact segments_loopEvents_fst _ _ _ _
  · intro seg hs ht
    rw [hseg] at hs
    obtain ⟨t1, e⟩ := segments_loopEvents_snd _ _ _ _ seg hs
    obtain ⟨m, body⟩ := seg
    cases m with
    | tweet o =>
      obtain ⟨err, he⟩ := insertAttempts_stepBody_tweet w s t1 o
      simp only at e
      rw [e, he]
      rfl
    | other k p => cases ht
  · rw [hins, ← length_filterMap_asTweet]
    have := congrArg List.length (insertAttempts_loopEvents w s setup
      (w.publicStreamFilter (apiOf w) (paramsOf w)))
    simpa using this

theorem insert_once_per_tweet_witness :
    Event.publicStreamFilter (apiOf mixedWorld) (paramsOf mixedWorld) ∈ (run mixedWorld).trace ∧
    insertAttempts (run mixedWorld).trace =
      [⟨"tweets", ⟨⟨"alice"⟩, "hello"⟩, some "write failed"⟩, ⟨"tweets", ⟨⟨"bob"⟩, "hi"⟩, none⟩] ∧
    ((run mixedWorld).exit = .returned ∧
    (segments (run mixedWorld).trace).map Prod.fst =
      mixedWorld.publicStreamFilter (apiOf mixedWorld) (paramsOf mixedWorld) ∧
    (∀ seg ∈ segments (run mixedWorld).trace, isTweet seg.1 = true →
      (insertAttempts seg.2).length = 1) ∧
    (insertAttempts (run mixedWorld).trace).length =
      (mixedWorld.publicStreamFilter (apiOf mixedWorld) (paramsOf mixedWorld)).countP isTweet) :=
  ⟨by decide, by decide,
    insert_once_per_tweet mixedWorld (apiOf mixedWorld) (paramsOf mixedWorld) (by decide)⟩

/-- C2: once the subscription is open, the run returns normally, every
delivered value is received in order, nothing at all (no storage write, no
error line) happens between the receipt of a value that is not a content
record and the next receipt, and a stream without content records yields no
insert attempt. -/
theorem non_tweet_ignored (w : World) (api : TwitterApi) (params : Values)
    (h : Event.publicStreamFilter api params ∈ (run w).trace) :
    (run w).exit = .returned ∧
    (segments (run w).trace).map Prod.fst = w.publicStreamFilter api params ∧
    (∀ seg ∈ segments (run w).trace, isTweet seg.1 = false → seg.2 = []) ∧
    ((∀ obj ∈ w.publicStreamFilter api params, isTweet obj = false) →
      insertAttempts (run w).trace = []) := by
  obtain ⟨hapi, hpar, hexit, setup, s, htr, hq⟩ := run_subscribed w api params h
  subst hapi hpar
  have hseg : segments (run w).trace =
      segments (loopEvents w s setup (w.publicStreamFilter (apiOf w) (paramsOf w))) := by
    rw [htr]
    exact segments_append_quiet _ _ (fun e he => (hq e he).1)
  have hins : insertAttempts (run w).trace =
      insertAttempts (loopEvents w s setup (w.publicStreamFilter (apiOf w) (paramsOf w))) := by
    rw [htr]
    exact insertAttempts_setup hq
  refine ⟨hexit, ?_, ?_, ?_⟩
  · rw [hseg]
    exact segments_loopEvents_fst _ _ _ _
  · intro seg hs ht
    rw [hseg] at hs
    obtain ⟨t1, e⟩ := segments_loopEvents_snd _ _ _ _ seg hs
    obtain ⟨m, body⟩ := seg
    cases m with
    | tweet o => cases ht
    | other k p => exact e
  · intro hall
    have hnone : (w.publicStreamFilter (apiOf w) (paramsOf w)).filterMap asTweet = [] := by
      rw [List.filterMap_eq_nil_iff]
      intro obj hobj
      have := hall obj hobj
      cases obj with
      | tweet o => cases this
      | other k p => rfl
    have := insertAttempts_loopEvents w s setup (w.publicStreamFilter (apiOf w) (paramsOf w))
    rw [hnone] at this
    rw [hins]
    simpa using this

theorem non_tweet_ignored_witness :
    Event.publicStreamFilter (apiOf noticeWorld) (paramsOf noticeWorld) ∈
      (run noticeWorld).trace ∧
    (∀ obj ∈ noticeWorld.publicStreamFilter (apiOf noticeWorld) (paramsOf noticeWorld),
      isTweet obj = false) ∧
    insertAttempts (run noticeWorld).trace = [] ∧
    ((run noticeWorld).exit = .returned ∧
    (segments (run noticeWorld).trace).map Prod.fst =
      noticeWorld.publicStreamFilter (apiOf noticeWorld) (paramsOf noticeWorld) ∧
    (∀ seg ∈ segments (run noticeWorld).trace, isTweet seg.1 = false → seg.2 = []) ∧
    ((∀ obj ∈ noticeWorld.publicStreamFilter (apiOf noticeWorld) (paramsOf noticeWorld),
        isTweet obj = false) →
      insertAttempts (run noticeWorld).trace = [])) :=
  ⟨by decide, by decide, by decide,
    non_tweet_ignored noticeWorld (apiOf noticeWorld) (paramsOf noticeWorld) (by decide)⟩

/-- C3: the run of the loop always ends (the run is a total function and,
once the subscription is open, returns normally), and the documents it tries
to insert are exactly the delivered content records, unchanged and in order of
delivery, each into the table `tweets`, whatever the outcomes of the inserts. -/
theorem inserts_are_tweets_in_order (w : World) (api : TwitterApi) (params : Values)
    (h : Event.publicStreamFilter api params ∈ (run w).trace) :
    (run w).exit = .returned ∧
    (insertAttempts (run w).trace).map (fun a => (a.table, a.doc)) =
      ((w.publicStreamFilter api params).filterMap asTweet).map (fun o => ("tweets", o)) := by
  obtain ⟨hapi, hpar, hexit, setup, s, htr, hq⟩ := run_subscribed w api params h
  subst hapi hpar
  refine ⟨hexit, ?_⟩
  rw [htr, insertAttempts_setup hq]
  exact insertAttempts_loopEvents _ _ _ _

theorem inserts_are_tweets_in_order_witness :
    Event.publicStreamFilter (apiOf demoWorld) (paramsOf demoWorld) ∈ (run demoWorld).trace ∧
    demoWorld.publicStreamFilter (apiOf demoWorld) (paramsOf demoWorld) =
      [.tweet ⟨⟨"alice"⟩, "hello"⟩] ∧
    insertAttempts (run demoWorld).trace = [⟨"tweets", ⟨⟨"alice"⟩, "hello"⟩, none⟩] ∧
    ((run demoWorld).exit = .returned ∧
    (insertAttempts (run demoWorld).trace).map (fun a => (a.table, a.doc)) =
      ((demoWorld.publicStreamFilter (apiOf demoWorld) (paramsOf demoWorld)).filterMap
        asTweet).map (fun o => ("tweets", o))) :=
  ⟨by decide, by decide, by decide,
    inserts_are_tweets_in_order demoWorld (apiOf demoWorld) (paramsOf demoWorld) (by decide)⟩

/-- C10: whenever the subscription is opened, the parameters passed have the
single key `track` with the single value read from `GTR_TWITTER_TRACK`,
whatever that string is (the empty string included). -/
theorem track_passed_verbatim (w : World) (api : TwitterApi) (params : Values)
    (h : Event.publicStreamFilter api params ∈ (run w).trace) :
    params = [("track", [w.getenv "GTR_TWITTER_TRACK"])] :=
  (run_subscribed w api params h).2.1

theorem track_passed_verbatim_witness :
    demoWorld.getenv "GTR_TWITTER_TRACK" = "rust" ∧
    Event.publicStreamFilter (apiOf demoWorld) [("track", ["rust"])] ∈ (run demoWorld).trace ∧
    [("track", ["rust"])] = [("track", [demoWorld.getenv "GTR_TWITTER_TRACK"])] :=
  ⟨by decide, by decide,
    track_passed_verbatim demoWorld (apiOf demoWorld) [("track", ["rust"])] (by decide)⟩

/-! ## Startup -/

theorem not_mem_schemaEvents_of {w : World} {session : Session} {t : List Event} {e : Event}
    (p : Event → Bool) (hp : p e = true)
    (hlog : ∀ l f a, p (.log l f a) = false) (hexec : ∀ q s r, p (.exec q s r) = false)
    (hsub : ∀ a q, p (.publicStreamFilter a q) = false) :
    e ∈ schemaEvents w session t ↔ False := by
  constructor
  · intro h
    rcases mem_schemaEvents h with ⟨l, f, a, rfl⟩ | ⟨err, rfl⟩ | ⟨err, rfl⟩ | rfl
    · rw [hlog] at hp; cases hp
    · rw [hexec] at hp; cases hp
    · rw [hexec] at hp; cases hp
    · rw [hsub] at hp; cases hp
  · exact False.elim

/-- C4: if credential verification answers with `ok = false` or with an error
(in any combination), the run ends fatally and `PublicStreamFilter` is never
called. -/
theorem bad_credentials_fatal (w : World) (api : TwitterApi) (ok : Bool) (err : Option String)
    (h : Event.verifyCredentials api ok err ∈ (run w).trace)
    (hbad : ok = false ∨ err ≠ none) :
    (run w).exit = .fatal ∧ ∀ e ∈ (run w).trace, isSubscribe e = false := by
  have hs : ∀ s t, Event.verifyCredentials api ok err ∈ schemaEvents w s t ↔ False :=
    fun s t => not_mem_schemaEvents_of
      (fun e => match e with | .verifyCredentials _ _ _ => true | _ => false) rfl
      (fun _ _ _ => rfl) (fun _ _ _ => rfl) (fun _ _ => rfl)
  rw [run_eq_flat] at h ⊢
  unfold flat flatConnect at h ⊢
  simp only [] at h ⊢
  split_ifs at h ⊢
  all_goals
    simp only [List.mem_append, List.mem_cons, List.mem_singleton, List.not_mem_nil, or_false,
      credEvents, configEvents, tlsEvents, not_mem_loopEvents, isLoopEvent, reduceCtorEq,
      false_or, or_self, or_false, hs, Event.verifyCredentials.injEq] at h
  · refine ⟨rfl, ?_⟩
    simp only [List.forall_mem_append, List.forall_mem_cons, credEvents, isSubscribe,
      List.not_mem_nil, and_self, false_implies, implies_true]
  all_goals
    obtain ⟨-, rfl, rfl⟩ := h
    rcases hbad with hb | hb
    · simp_all
    · cases hv : (w.verifyCredentials (apiOf w)).2 <;> simp_all

theorem bad_credentials_fatal_witness :
    Event.verifyCredentials (apiOf badCredsWorld) false none ∈ (run badCredsWorld).trace ∧
    ((run badCredsWorld).exit = .fatal ∧
      ∀ e ∈ (run badCredsWorld).trace, isSubscribe e = false) :=
  ⟨by decide,
    bad_credentials_fatal badCredsWorld (apiOf badCredsWorld) false none (by decide)
      (Or.inl rfl)⟩

theorem utf8ByteSize_pos_iff (s : String) : s.utf8ByteSize > 0 ↔ s ≠ "" := by
  obtain ⟨cs⟩ := s
  rw [String.utf8ByteSize_mk, gt_iff_lt, Nat.pos_iff_ne_zero, ne_eq, ne_eq,
    String.utf8Len_eq_zero]
  constructor
  · intro h hs
    exact h (congrArg String.data hs)
  · intro h hs
    exact h (by subst hs; rfl)

theorem tlsGate_eq_true_iff (w : World) :
    tlsGate w = true ↔
      w.getenv "GTR_RETHINKDB_TLS_CA" ≠ "" ∧ w.getenv "GTR_RETHINKDB_TLS_CERT" ≠ "" := by
  unfold tlsGate
  rw [Bool.and_eq_true, decide_eq_true_iff, decide_eq_true_iff, utf8ByteSize_pos_iff,
    utf8ByteSize_pos_iff]

/-- C5: if the CA path and the certificate path are both non-empty and the CA
file cannot be read or the certificate and key pair cannot be loaded, the run
ends fatally without any call of `r.Connect` or of `PublicStreamFilter`. -/
theorem tls_load_failure_fatal (w : World)
    (hca : w.getenv "GTR_RETHINKDB_TLS_CA" ≠ "")
    (hcert : w.getenv "GTR_RETHINKDB_TLS_CERT" ≠ "")
    (hfail : (w.readFile (w.getenv "GTR_RETHINKDB_TLS_CA")).2 ≠ none ∨
      (w.loadX509KeyPair (w.getenv "GTR_RETHINKDB_TLS_CERT")
        (w.getenv "GTR_RETHINKDB_TLS_KEY")).2 ≠ none) :
    (run w).exit = .fatal ∧
      ∀ e ∈ (run w).trace, isConnect e = false ∧ isSubscribe e = false := by
  have hg : tlsGate w = true := (tlsGate_eq_true_iff w).2 ⟨hca, hcert⟩
  rw [run_eq_flat]
  unfold flat
  simp only [hg, if_true]
  split_ifs with h1 h2 h3
  · refine ⟨rfl, ?_⟩
    simp only [List.forall_mem_append, List.forall_mem_cons, credEvents, isSubscribe, isConnect,
      List.not_mem_nil, and_self, false_implies, implies_true]
  · refine ⟨rfl, ?_⟩
    simp only [List.forall_mem_append, List.forall_mem_cons, credEvents, configEvents,
      isSubscribe, isConnect, List.not_mem_nil, and_self, false_implies, implies_true]
  · refine ⟨rfl, ?_⟩
    simp only [List.forall_mem_append, List.forall_mem_cons, credEvents, configEvents, tlsEvents,
      isSubscribe, isConnect, List.not_mem_nil, and_self, false_implies, implies_true]
  · exfalso
    rcases hfail with hf | hf
    · cases hr : (w.readFile (w.getenv "GTR_RETHINKDB_TLS_CA")).2 <;> simp_all
    · cases hr : (w.loadX509KeyPair (w.getenv "GTR_RETHINKDB_TLS_CERT")
        (w.getenv "GTR_RETHINKDB_TLS_KEY")).2 <;> simp_all

theorem tls_load_failure_fatal_witness :
    tlsKeyBadWorld.getenv "GTR_RETHINKDB_TLS_CA" = "/tls/ca.pem" ∧
    tlsKeyBadWorld.getenv "GTR_RETHINKDB_TLS_CERT" = "/tls/client.pem" ∧
    tlsKeyBadWorld.verifyCredentials (apiOf tlsKeyBadWorld) = (true, none) ∧
    ((run tlsKeyBadWorld).exit = .fatal ∧
      ∀ e ∈ (run tlsKeyBadWorld).trace, isConnect e = false ∧ isSubscribe e = false) :=
  ⟨by decide, by decide, by decide,
    tls_load_failure_fatal tlsKeyBadWorld (by decide) (by decide) (Or.inr (by decide))⟩

theorem schemaEvents_no_tls_connect {w : World} {session : Session} {t : List Event} :
    ∀ e ∈ schemaEvents w session t, isTLSLoad e = false ∧ isConnect e = false :=
  fun _ he => ⟨(schemaEvents_quiet he).2.2.2, (schemaEvents_quiet he).2.2.1⟩

theorem loopEvents_no_tls_connect {w : World} {session : Session} {t : List Event}
    {stream : List Message} :
    ∀ e ∈ loopEvents w session t stream, isTLSLoad e = false ∧ isConnect e = false := by
  intro e he
  have := mem_loopEvents he
  cases e <;> first | exact ⟨rfl, rfl⟩ | cases this

/-- C6: if the CA path or the certificate path is empty and the credentials
verify, then, whatever the key path, no TLS file is read, parsed or loaded,
`r.Connect` is called, and every call of it carries a nil `TLSConfig`. -/
theorem no_tls_without_material (w : World)
    (habs : w.getenv "GTR_RETHINKDB_TLS_CA" = "" ∨ w.getenv "GTR_RETHINKDB_TLS_CERT" = "")
    (hok : w.verifyCredentials (apiOf w) = (true, none)) :
    (∀ e ∈ (run w).trace, isTLSLoad e = false) ∧
    Event.connect (optsOf w none) (w.connect (optsOf w none)).2 ∈ (run w).trace ∧
    (∀ opts err, Event.connect opts err ∈ (run w).trace → opts.TLSConfig = none) := by
  have hg : ¬ tlsGate w = true := by
    rw [tlsGate_eq_true_iff]
    rintro ⟨h1, h2⟩
    rcases habs with h | h
    · exact h1 h
    · exact h2 h
  have hconn : ∀ e ∈ (run w).trace, isTLSLoad e = false ∧
      (isConnect e = true → e = .connect (optsOf w none) (w.connect (optsOf w none)).2) := by
    rw [run_eq_flat]
    unfold flat flatConnect
    simp only [hok, hg, Bool.not_true, Option.isSome_none, Bool.or_false, Bool.false_eq_true,
      if_false]
    split_ifs
    · simp only [List.forall_mem_append, List.forall_mem_cons, credEvents, configEvents,
        isTLSLoad, isConnect, List.not_mem_nil, and_self, false_implies, implies_true,
        Bool.false_eq_true, true_and, and_true]
    · simp only [List.forall_mem_append, List.forall_mem_cons, credEvents, configEvents,
        isTLSLoad, isConnect, List.not_mem_nil, and_self, false_implies, implies_true,
        Bool.false_eq_true, true_and, and_true]
      refine ⟨fun e he => ?_, fun e he => ?_⟩
      · have := schemaEvents_no_tls_connect e he
        refine ⟨this.1, fun hc => ?_⟩
        have h2 : isConnect e = true := hc
        rw [this.2] at h2
        cases h2
      · have := loopEvents_no_tls_connect e he
        refine ⟨this.1, fun hc => ?_⟩
        have h2 : isConnect e = true := hc
        rw [this.2] at h2
        cases h2
  refine ⟨fun e he => (hconn e he).1, ?_, ?_⟩
  · rw [run_eq_flat]
    unfold flat flatConnect
    simp only [hok, hg, Bool.not_true, Option.isSome_none, Bool.or_false, Bool.false_eq_true,
      if_false]
    split_ifs <;> simp
  · intro opts err he
    have := (hconn _ he).2 rfl
    rw [Event.connect.injEq] at this
    rw [this.1]
    rfl

theorem no_tls_without_material_witness :
    certOnlyWorld.getenv "GTR_RETHINKDB_TLS_CERT" = "/tls/client.pem" ∧
    certOnlyWorld.getenv "GTR_RETHINKDB_TLS_KEY" = "/tls/missing.key" ∧
    ((∀ e ∈ (run certOnlyWorld).trace, isTLSLoad e = false) ∧
    Event.connect (optsOf certOnlyWorld none) (certOnlyWorld.connect (optsOf certOnlyWorld none)).2
      ∈ (run certOnlyWorld).trace ∧
    (∀ opts err, Event.connect opts err ∈ (run certOnlyWorld).trace → opts.TLSConfig = none)) :=
  ⟨by decide, by decide, no_tls_without_material certOnlyWorld (Or.inl (by decide)) (by decide)⟩

theorem not_connect_mem_schemaEvents {w : World} {session : Session} {t : List Event}
    {opts : ConnectOpts} {err : Option String} :
    Event.connect opts err ∈ schemaEvents w session t ↔ False :=
  not_mem_schemaEvents_of isConnect rfl (fun _ _ _ => rfl) (fun _ _ _ => rfl) (fun _ _ => rfl)

theorem isSetupCall_loopEvent (e : Event) (he : isLoopEvent e = true) :
    isSetupCall e = false := by
  cases e with
  | exec q s r => cases q <;> first | rfl | cases he
  | _ => first | rfl | cases he

/-- From a successful `r.Connect` on, the run returns normally and performs
the two schema operations and the opening of the subscription once each. -/
theorem flatConnect_setupCalls (w : World) (t : List Event) (tls : Option TLSConfig)
    (ht : t.filter isSetupCall = [])
    (hc : ¬ (w.connect (optsOf w tls)).2.isSome = true) :
    (flatConnect w t tls).exit = .returned ∧
    ∃ session e1 e2, (flatConnect w t tls).trace.filter isSetupCall =
      [ .exec (.DBCreate (w.getenv "GTR_RETHINKDB_DATABASE")) session e1,
        .exec (.TableCreate "tweets") session e2,
        .publicStreamFilter (apiOf w) (paramsOf w) ] := by
  unfold flatConnect
  simp only []
  rw [if_neg hc]
  obtain ⟨e1, e2, hs⟩ := schemaEvents_setupCalls w (w.connect (optsOf w tls)).1
    (t ++ [.connect (optsOf w tls) (w.connect (optsOf w tls)).2])
  refine ⟨rfl, (w.connect (optsOf w tls)).1, e1, e2, ?_⟩
  simp only [List.filter_append, ht, hs, filter_loopEvents isSetupCall isSetupCall_loopEvent,
    List.append_nil, List.nil_append]
  rfl

/-- A successful call of `r.Connect` is in the trace only if the call made by
`flatConnect` succeeds. -/
theorem flatConnect_connect_ok (w : World) (t : List Event) (tls : Option TLSConfig)
    (opts : ConnectOpts) (ht : ∀ e ∈ t, isConnect e = false)
    (h : Event.connect opts none ∈ (flatConnect w t tls).trace) :
    ¬ (w.connect (optsOf w tls)).2.isSome = true := by
  intro hc
  unfold flatConnect at h
  simp only [hc, if_true, List.mem_append, List.mem_cons, List.mem_singleton, List.not_mem_nil,
    or_false, reduceCtorEq, Event.connect.injEq] at h
  rcases h with h | h
  · have := ht _ h
    cases this
  · rw [← h.2] at hc
    cases hc

/-- C8: if a call of `r.Connect` returns without error, then, whatever the
outcomes of the database creation and of the table creation, the run does not
end fatally, and the database creation, the table creation and the opening of
the subscription happen exactly once each, in this order. -/
theorem schema_errors_not_fatal (w : World) (opts : ConnectOpts)
    (h : Event.connect opts none ∈ (run w).trace) :
    (run w).exit = .returned ∧
    ∃ session e1 e2, (run w).trace.filter isSetupCall =
      [ .exec (.DBCreate (w.getenv "GTR_RETHINKDB_DATABASE")) session e1,
        .exec (.TableCreate "tweets") session e2,
        .publicStreamFilter (apiOf w) (paramsOf w) ] := by
  rw [run_eq_flat] at h ⊢
  unfold flat at h ⊢
  simp only [] at h ⊢
  split_ifs at h ⊢
  · simp [credEvents] at h
  · simp [credEvents, configEvents] at h
  · simp [credEvents, configEvents, tlsEvents] at h
  · refine flatConnect_setupCalls w _ _ ?_ (flatConnect_connect_ok w _ _ opts ?_ h)
    · simp [credEvents, configEvents, tlsEvents, isSetupCall]
    · simp [credEvents, configEvents, tlsEvents, isConnect]
  · refine flatConnect_setupCalls w _ _ ?_ (flatConnect_connect_ok w _ _ opts ?_ h)
    · simp [credEvents, configEvents, isSetupCall]
    · simp [credEvents, configEvents, isConnect]

theorem schema_errors_not_fatal_witness :
    Event.connect (optsOf schemaExistsWorld none) none ∈ (run schemaExistsWorld).trace ∧
    (run schemaExistsWorld).trace.filter isSetupCall =
      [ .exec (.DBCreate "") ⟨1⟩ (some "Database already exists"),
        .exec (.TableCreate "tweets") ⟨1⟩ (some "Table already exists"),
        .publicStreamFilter (apiOf schemaExistsWorld) (paramsOf schemaExistsWorld) ] ∧
    ((run schemaExistsWorld).exit = .returned ∧
    ∃ session e1 e2, (run schemaExistsWorld).trace.filter isSetupCall =
      [ .exec (.DBCreate (schemaExistsWorld.getenv "GTR_RETHINKDB_DATABASE")) session e1,
        .exec (.TableCreate "tweets") session e2,
        .publicStreamFilter (apiOf schemaExistsWorld) (paramsOf schemaExistsWorld) ]) :=
  ⟨by decide, by decide,
    schema_errors_not_fatal schemaExistsWorld (optsOf schemaExistsWorld none) (by decide)⟩

/-- A failed call of `r.Connect` is in the trace only if the call made by
`flatConnect` fails. -/
theorem flatConnect_connect_err (w : World) (t : List Event) (tls : Option TLSConfig)
    (opts : ConnectOpts) (err : String) (ht : ∀ e ∈ t, isConnect e = false)
    (h : Event.connect opts (some err) ∈ (flatConnect w t tls).trace) :
    (w.connect (optsOf w tls)).2.isSome = true := by
  by_contra hc
  unfold flatConnect at h
  simp only [] at h
  rw [if_neg hc] at h
  simp only [List.mem_append, List.mem_cons, List.mem_singleton, List.not_mem_nil,
    or_false, not_connect_mem_schemaEvents, not_mem_loopEvents, isLoopEvent,
    Event.connect.injEq] at h
  rcases h with h | h
  · have := ht _ h
    cases this
  · rw [← h.2] at hc
    exact hc rfl

/-- When `r.Connect` fails, the run ends fatally after this one call, without
executing a query or opening the subscription. -/
theorem flatConnect_fatal (w : World) (t : List Event) (tls : Option TLSConfig)
    (hc : (w.connect (optsOf w tls)).2.isSome = true)
    (ht : ∀ e ∈ t, isConnect e = false ∧ isExec e = false ∧ isSubscribe e = false) :
    (flatConnect w t tls).exit = .fatal ∧
    ((flatConnect w t tls).trace.filter isConnect).length = 1 ∧
    ∀ e ∈ (flatConnect w t tls).trace, isExec e = false ∧ isSubscribe e = false := by
  unfold flatConnect
  simp only []
  rw [if_pos hc]
  have h0 : t.filter isConnect = [] := by
    rw [List.filter_eq_nil_iff]
    intro e he
    rw [(ht e he).1]
    simp
  refine ⟨rfl, ?_, ?_⟩
  · simp only [List.filter_append, h0, List.nil_append]
    rfl
  · intro e he
    simp only [List.mem_append, List.mem_singleton] at he
    rcases he with (he | he) | he
    · exact (ht e he).2
    · subst he
      exact ⟨rfl, rfl⟩
    · subst he
      exact ⟨rfl, rfl⟩

/-- C9: if a call of `r.Connect` returns an error, the run ends fatally,
`r.Connect` was called exactly once, and no query is executed (no database
creation, no table creation, no insert) and no subscription is opened. -/
theorem connect_error_fatal (w : World) (opts : ConnectOpts) (err : String)
    (h : Event.connect opts (some err) ∈ (run w).trace) :
    (run w).exit = .fatal ∧
    ((run w).trace.filter isConnect).length = 1 ∧
    ∀ e ∈ (run w).trace, isExec e = false ∧ isSubscribe e = false := by
  rw [run_eq_flat] at h ⊢
  unfold flat at h ⊢
  simp only [] at h ⊢
  split_ifs at h ⊢
  · simp [credEvents] at h
  · simp [credEvents, configEvents] at h
  · simp [credEvents, configEvents, tlsEvents] at h
  · refine flatConnect_fatal w _ _ (flatConnect_connect_err w _ _ opts err ?_ h) ?_
    · simp [credEvents, configEvents, tlsEvents, isConnect]
    · simp [credEvents, configEvents, tlsEvents, isConnect, isExec, isSubscribe]
  · refine flatConnect_fatal w _ _ (flatConnect_connect_err w _ _ opts err ?_ h) ?_
    · simp [credEvents, configEvents, isConnect]
    · simp [credEvents, configEvents, isConnect, isExec, isSubscribe]

theorem connect_error_fatal_witness :
    Event.connect (optsOf noDbWorld none) (some "dial tcp: connection refused") ∈
      (run noDbWorld).trace ∧
    ((run noDbWorld).exit = .fatal ∧
    ((run noDbWorld).trace.filter isConnect).length = 1 ∧
    ∀ e ∈ (run noDbWorld).trace, isExec e = false ∧ isSubscribe e = false) :=
  ⟨by decide,
    connect_error_fatal noDbWorld (optsOf noDbWorld none) "dial tcp: connection refused"
      (by decide)⟩

/-- C7 (the code at the failing input): the CA file is read but holds no
certificate, `AppendCertsFromPEM` reports that nothing was appended, and the
run nevertheless goes on to load the key pair, calls `r.Connect` with an empty
pool of root certificates, and does not end fatally. -/
theorem unparsable_ca_not_fatal :
    badPemWorld.getenv "GTR_RETHINKDB_TLS_CA" = "/tls/ca.pem" ∧
    badPemWorld.getenv "GTR_RETHINKDB_TLS_CERT" = "/tls/client.pem" ∧
    Event.readFile "/tls/ca.pem" none ∈ (run badPemWorld).trace ∧
    Event.appendCertsFromPEM "not a certificate" false ∈ (run badPemWorld).trace ∧
    Event.connect (optsOf badPemWorld (some ⟨[⟨"client"⟩], []⟩)) none ∈ (run badPemWorld).trace ∧
    (run badPemWorld).exit = .returned := by
  decide

end Gtrchive
